import Mathlib

/-!
Shallow embedding of `src/pymongo_iterator.py` (class `PymongoIterator`).

Documents are opaque; we represent them by natural numbers.  The external
MongoDB collection is modelled by the snapshot of documents matching the
field `search_opts` of the iterator, given both in natural order and in
the order induced by `sort_opts` (a permutation of the former).  Server side
behaviour that the Python code merely reacts to (a pull raising
`CursorNotFound`, a pull raising some other error, `close` raising) is
injected as explicit parameters of the step function, and every call the
component makes to its collaborators (count, find, next-pull, close) is
recorded in a trace.
-/

/-- Snapshot of the documents of the collection matching `search_opts`:
`docs` in natural order, `sorted` in the order of
`sort_opts` (a permutation of `docs`). -/
structure MongoColl where
  docs : List Nat
  sorted : List Nat
  deriving Repr, DecidableEq

/-- External calls the iterator makes to its collaborators.
`find s l b` records a cursor being opened with skip `s` and limit `l`, and
`b = true` iff `.sort(sort_opts)` was applied to it. -/
inductive ExtCall where
  | countDocuments (skip limit : Nat)
  | find (skip limit : Nat) (sortApplied : Bool)
  | nextPull
  | closeCursor
  deriving Repr, DecidableEq

/-- Behaviour of one underlying `next(cursor)` call, chosen by the
environment: normal (list semantics), raise `CursorNotFound`, or raise some
other (non-`CursorNotFound`, non-`StopIteration`) error. -/
inductive Pull where
  | ok
  | notFound
  | err
  deriving Repr, DecidableEq

/-- State of a `PymongoIterator` instance (`self` in the Python source).
`cursor` is the list of documents the active server cursor has not yet
returned. -/
structure PymongoIterator where
  collection : MongoColl
  skip : Nat
  limit : Nat
  disp_progress : Nat
  i : Nat
  total_docs : Nat
  cursor : List Nat
  deriving Repr, DecidableEq

/-- Models the pymongo cursor limit method: a limit of 0 means no limit. -/
def applyLimit (l : Nat) (xs : List Nat) : List Nat :=
  if l = 0 then xs else xs.take l

/-- Models `collection.count_documents(filter, skip=s, limit=l)` on a
collection with `n` matching documents: the size of the result window. -/
def countDocs (n s l : Nat) : Nat :=
  min l (n - s)

/-- Translation of `__init__`: normalizes `limit` (`0 ↦ 2**31`), issues the count query,
opens the first cursor with sort, skip and limit applied.  Returns the new
state together with the trace of external calls. -/
def pymongoInit (c : MongoColl) (skip limit disp_progress : Nat) :
    PymongoIterator × List ExtCall :=
  let nlimit := if limit = 0 then 2 ^ 31 else limit
  ({ collection := c
     skip := skip
     limit := nlimit
     disp_progress := disp_progress
     i := 0
     total_docs := countDocs c.docs.length skip nlimit
     cursor := applyLimit nlimit (c.sorted.drop skip) },
   [ExtCall.countDocuments skip nlimit, ExtCall.find skip nlimit true])

/-- Translation of `__len__`. -/
def pymongoLen (st : PymongoIterator) : Nat :=
  st.total_docs

/-- The `intermediate_limit` computed by `__reinitialize`. -/
def interLimit (st : PymongoIterator) : Nat :=
  if st.limit ≠ 0 then st.limit - st.i else 0

/-- The contents of the replacement cursor opened by `__reinitialize`:
`collection.find(search_opts).skip(i + skip).limit(intermediate_limit)`,
with no `.sort` applied, hence drawn from the natural-order list. -/
def reinitCursor (st : PymongoIterator) : List Nat :=
  applyLimit (interLimit st) (st.collection.docs.drop (st.i + st.skip))

/-- Outcome of one `__next__` call as seen by the caller. -/
inductive NextResult where
  | yielded (doc : Nat)
  | stopIteration
  | raised
  deriving Repr, DecidableEq

/-- One `__next__` call: caller-visible outcome, successor state, and the
trace of external calls made during the call. -/
structure StepOut where
  result : NextResult
  state : PymongoIterator
  calls : List ExtCall
  deriving Repr, DecidableEq

/-- Translation of `__next__` (with `__reinitialize` inlined at its single call site).
`p1` is the behaviour of the pull on the active cursor, `p2` the behaviour
of the single recovery pull inside `__reinitialize` (consulted only when
`p1 = .notFound`), and `closeFails` tells whether `cursor.close()` raises
(consulted only on the exhaustion path).  A pull with behaviour `.ok` on an
empty cursor raises `StopIteration`, which the `except CursorNotFound`
clause does not catch. -/
def pymongoNext (st : PymongoIterator) (p1 p2 : Pull) (closeFails : Bool) :
    StepOut :=
  if st.total_docs ≤ st.i then
    if closeFails then
      { result := NextResult.raised, state := st, calls := [ExtCall.closeCursor] }
    else
      { result := NextResult.stopIteration, state := st,
        calls := [ExtCall.closeCursor] }
  else
    match p1 with
    | Pull.err =>
        { result := NextResult.raised, state := st, calls := [ExtCall.nextPull] }
    | Pull.notFound =>
        let calls := [ExtCall.nextPull,
                      ExtCall.find (st.i + st.skip) (interLimit st) false,
                      ExtCall.nextPull]
        match p2 with
        | Pull.err =>
            { result := NextResult.raised,
              state := { st with cursor := reinitCursor st }, calls := calls }
        | Pull.notFound =>
            { result := NextResult.raised,
              state := { st with cursor := reinitCursor st }, calls := calls }
        | Pull.ok =>
            match reinitCursor st with
            | [] =>
                { result := NextResult.stopIteration,
                  state := { st with cursor := [] }, calls := calls }
            | d :: rest =>
                { result := NextResult.yielded d,
                  state := { st with cursor := rest, i := st.i + 1 },
                  calls := calls }
    | Pull.ok =>
        match st.cursor with
        | [] =>
            { result := NextResult.stopIteration, state := st,
              calls := [ExtCall.nextPull] }
        | d :: rest =>
            { result := NextResult.yielded d,
              state := { st with cursor := rest, i := st.i + 1 },
              calls := [ExtCall.nextPull] }

/-- One fault-free step: the active cursor answers normally and `close`
does not raise. -/
def stepNF (st : PymongoIterator) : StepOut :=
  pymongoNext st Pull.ok Pull.ok false

/-- State after `k` fault-free `__next__` calls. -/
def nfIter (st : PymongoIterator) : Nat → PymongoIterator
  | 0 => st
  | k + 1 => (stepNF (nfIter st k)).state

/-- Number of documents yielded during the first `k` fault-free `__next__`
calls. -/
def nfYieldCount (st : PymongoIterator) : Nat → Nat
  | 0 => 0
  | k + 1 =>
      nfYieldCount st k +
        (match (stepNF (nfIter st k)).result with
         | NextResult.yielded _ => 1
         | _ => 0)

/-! ### Branch characterizations of one `__next__` call -/

/-- Exhaustion path, close succeeding: close then `StopIteration`. -/
theorem next_exhausted (st : PymongoIterator) (p1 p2 : Pull)
    (h : st.total_docs ≤ st.i) :
    pymongoNext st p1 p2 false =
      { result := NextResult.stopIteration, state := st,
        calls := [ExtCall.closeCursor] } := by
  unfold pymongoNext
  rw [if_pos h]
  rfl

/-- Exhaustion path, close raising: the error propagates. -/
theorem next_exhausted_closeFail (st : PymongoIterator) (p1 p2 : Pull)
    (h : st.total_docs ≤ st.i) :
    pymongoNext st p1 p2 true =
      { result := NextResult.raised, state := st,
        calls := [ExtCall.closeCursor] } := by
  unfold pymongoNext
  rw [if_pos h]
  rfl

/-- Active cursor, pull raising a non-`CursorNotFound` error. -/
theorem next_active_err (st : PymongoIterator) (p2 : Pull) (cf : Bool)
    (h : st.i < st.total_docs) :
    pymongoNext st Pull.err p2 cf =
      { result := NextResult.raised, state := st,
        calls := [ExtCall.nextPull] } := by
  unfold pymongoNext
  rw [if_neg (not_le.mpr h)]

/-- Active cursor, normal pull on a nonempty cursor. -/
theorem next_active_ok_cons (st : PymongoIterator) (p2 : Pull) (cf : Bool)
    (d : Nat) (rest : List Nat)
    (h : st.i < st.total_docs) (hc : st.cursor = d :: rest) :
    pymongoNext st Pull.ok p2 cf =
      { result := NextResult.yielded d,
        state := { st with cursor := rest, i := st.i + 1 },
        calls := [ExtCall.nextPull] } := by
  unfold pymongoNext
  rw [if_neg (not_le.mpr h)]
  simp only [hc]

/-- Active cursor, normal pull on an exhausted underlying cursor:
`StopIteration` from the cursor propagates, nothing else changes. -/
theorem next_active_ok_nil (st : PymongoIterator) (p2 : Pull) (cf : Bool)
    (h : st.i < st.total_docs) (hc : st.cursor = []) :
    pymongoNext st Pull.ok p2 cf =
      { result := NextResult.stopIteration, state := st,
        calls := [ExtCall.nextPull] } := by
  unfold pymongoNext
  rw [if_neg (not_le.mpr h)]
  simp only [hc]

/-- Active cursor, `CursorNotFound`, recovery pull succeeding on a nonempty
replacement cursor. -/
theorem next_notFound_ok_cons (st : PymongoIterator) (cf : Bool)
    (d : Nat) (rest : List Nat)
    (h : st.i < st.total_docs) (hc : reinitCursor st = d :: rest) :
    pymongoNext st Pull.notFound Pull.ok cf =
      { result := NextResult.yielded d,
        state := { st with cursor := rest, i := st.i + 1 },
        calls := [ExtCall.nextPull,
                  ExtCall.find (st.i + st.skip) (interLimit st) false,
                  ExtCall.nextPull] } := by
  unfold pymongoNext
  rw [if_neg (not_le.mpr h)]
  simp only [hc]

/-- Active cursor, `CursorNotFound`, recovery pull hitting an empty
replacement cursor: `StopIteration` propagates. -/
theorem next_notFound_ok_nil (st : PymongoIterator) (cf : Bool)
    (h : st.i < st.total_docs) (hc : reinitCursor st = []) :
    pymongoNext st Pull.notFound Pull.ok cf =
      { result := NextResult.stopIteration,
        state := { st with cursor := [] },
        calls := [ExtCall.nextPull,
                  ExtCall.find (st.i + st.skip) (interLimit st) false,
                  ExtCall.nextPull] } := by
  unfold pymongoNext
  rw [if_neg (not_le.mpr h)]
  simp only [hc]

/-- Active cursor, `CursorNotFound`, recovery pull itself failing (either
error kind): the failure propagates and `i` is unchanged. -/
theorem next_notFound_fail (st : PymongoIterator) (p2 : Pull) (cf : Bool)
    (h : st.i < st.total_docs) (hp2 : p2 ≠ Pull.ok) :
    pymongoNext st Pull.notFound p2 cf =
      { result := NextResult.raised,
        state := { st with cursor := reinitCursor st },
        calls := [ExtCall.nextPull,
                  ExtCall.find (st.i + st.skip) (interLimit st) false,
                  ExtCall.nextPull] } := by
  unfold pymongoNext
  rw [if_neg (not_le.mpr h)]
  cases p2 with
  | ok => exact absurd rfl hp2
  | notFound => rfl
  | err => rfl

/-! ### Invariant for fault-free iteration -/

/-- The iteration invariant: the emitted count never exceeds the total, and
the active cursor holds exactly the documents still to be emitted. -/
def IterInv (st : PymongoIterator) : Prop :=
  st.i ≤ st.total_docs ∧ st.cursor.length = st.total_docs - st.i

/-- The normalized limit is never zero. -/
theorem normLimit_ne_zero (limit : Nat) :
    (if limit = 0 then 2 ^ 31 else limit) ≠ 0 := by
  split
  · norm_num
  · assumption

/-- A freshly constructed iterator satisfies the invariant, provided the
sorted view is a rearrangement (same length) of the natural-order view. -/
theorem inv_init (c : MongoColl) (skip limit disp : Nat)
    (hlen : c.sorted.length = c.docs.length) :
    IterInv (pymongoInit c skip limit disp).1 ∧
    (pymongoInit c skip limit disp).1.i = 0 := by
  refine ⟨⟨Nat.zero_le _, ?_⟩, rfl⟩
  have hnz := normLimit_ne_zero limit
  show (applyLimit _ _).length = countDocs _ _ _ - 0
  rw [applyLimit, if_neg hnz, countDocs, Nat.sub_zero, List.length_take,
    List.length_drop, hlen]

/-- One fault-free step preserves the invariant and behaves as the spec
describes: strictly below the total it yields a document and increments
`i`; at the total it closes and signals end of sequence. -/
theorem stepNF_spec (st : PymongoIterator) (hInv : IterInv st) :
    IterInv (stepNF st).state ∧
    (stepNF st).state.total_docs = st.total_docs ∧
    (st.i < st.total_docs →
      (stepNF st).state.i = st.i + 1 ∧
      ∃ d, (stepNF st).result = NextResult.yielded d) ∧
    (st.total_docs ≤ st.i →
      (stepNF st).state = st ∧
      (stepNF st).result = NextResult.stopIteration) := by
  obtain ⟨hle, hlen⟩ := hInv
  rcases Nat.lt_or_ge st.i st.total_docs with hlt | hge
  · have hne : st.cursor ≠ [] := by
      intro h0
      rw [h0] at hlen
      simp only [List.length_nil] at hlen
      omega
    obtain ⟨d, rest, hc⟩ := List.exists_cons_of_ne_nil hne
    have hstep := next_active_ok_cons st Pull.ok false d rest hlt hc
    rw [stepNF, hstep]
    refine ⟨⟨by simpa using hlt, ?_⟩, rfl, fun _ => ⟨rfl, d, rfl⟩, fun hge => by omega⟩
    have : rest.length + 1 = st.total_docs - st.i := by
      rw [← hlen, hc]
      simp
    simp only
    omega
  · have hstep := next_exhausted st Pull.ok Pull.ok hge
    rw [stepNF, hstep]
    exact ⟨⟨hle, hlen⟩, rfl, fun hlt => by omega, fun _ => ⟨rfl, rfl⟩⟩

/-- Fault-free iteration from a state satisfying the invariant with `i = 0`:
the invariant holds at every step, the total never changes, and after `k`
steps exactly `min k total` documents have been emitted. -/
theorem nfIter_spec (st : PymongoIterator) (hInv : IterInv st) (h0 : st.i = 0) :
    ∀ k, IterInv (nfIter st k) ∧
      (nfIter st k).total_docs = st.total_docs ∧
      (nfIter st k).i = min k st.total_docs ∧
      nfYieldCount st k = min k st.total_docs := by
  intro k
  induction k with
  | zero => exact ⟨hInv, rfl, by simpa using h0, by simp [nfYieldCount]⟩
  | succ k ih =>
    obtain ⟨ihInv, ihT, ihi, ihy⟩ := ih
    obtain ⟨sInv, sT, sLt, sGe⟩ := stepNF_spec (nfIter st k) ihInv
    have hiter : nfIter st (k + 1) = (stepNF (nfIter st k)).state := rfl
    have hy : nfYieldCount st (k + 1) =
        nfYieldCount st k +
          (match (stepNF (nfIter st k)).result with
           | NextResult.yielded _ => 1
           | _ => 0) := rfl
    rcases Nat.lt_or_ge (nfIter st k).i (nfIter st k).total_docs with hlt | hge
    · obtain ⟨hi1, d, hd⟩ := sLt hlt
      have hkT : k < st.total_docs := by
        rw [ihT] at hlt
        omega
      refine ⟨by rwa [hiter], by rw [hiter, sT, ihT], ?_, ?_⟩
      · rw [hiter, hi1, ihi]
        omega
      · have hy1 : nfYieldCount st (k + 1) = nfYieldCount st k + 1 := by
          rw [hy, hd]
        rw [hy1, ihy]
        omega
    · obtain ⟨hsame, hstop⟩ := sGe hge
      have hkT : st.total_docs ≤ k := by
        rw [ihT] at hge
        omega
      refine ⟨by rwa [hiter], by rw [hiter, sT, ihT], ?_, ?_⟩
      · rw [hiter, hsame, ihi]
        omega
      · have hy0 : nfYieldCount st (k + 1) = nfYieldCount st k + 0 := by
          rw [hy, hstop]
        rw [hy0, ihy]
        omega

/-! ### Claim theorems -/

/-- C1: for every valid combination of filter, sort order, initial skip and
limit (the sorted view being a rearrangement of the matching documents), a
fault-free iteration yields exactly `total_docs` documents and then signals
end of sequence; an advance signals end of sequence exactly when
`i = total_docs`, and `0 ≤ i ≤ total_docs` holds throughout. -/
theorem c1_exact_total_yield (c : MongoColl) (skip limit disp k : Nat)
    (hlen : c.sorted.length = c.docs.length) :
    (nfIter (pymongoInit c skip limit disp).1 k).i =
      min k (pymongoInit c skip limit disp).1.total_docs ∧
    (nfIter (pymongoInit c skip limit disp).1 k).i ≤
      (pymongoInit c skip limit disp).1.total_docs ∧
    nfYieldCount (pymongoInit c skip limit disp).1 k =
      min k (pymongoInit c skip limit disp).1.total_docs ∧
    (k < (pymongoInit c skip limit disp).1.total_docs →
      ∃ d, (stepNF (nfIter (pymongoInit c skip limit disp).1 k)).result =
        NextResult.yielded d) ∧
    ((pymongoInit c skip limit disp).1.total_docs ≤ k →
      (stepNF (nfIter (pymongoInit c skip limit disp).1 k)).result =
        NextResult.stopIteration) ∧
    ((stepNF (nfIter (pymongoInit c skip limit disp).1 k)).result =
        NextResult.stopIteration ↔
      (nfIter (pymongoInit c skip limit disp).1 k).i =
        (pymongoInit c skip limit disp).1.total_docs) := by
  obtain ⟨hInv0, hi0⟩ := inv_init c skip limit disp hlen
  obtain ⟨hI, hT, hi, hy⟩ :=
    nfIter_spec (pymongoInit c skip limit disp).1 hInv0 hi0 k
  obtain ⟨sInv, sT, sLt, sGe⟩ :=
    stepNF_spec (nfIter (pymongoInit c skip limit disp).1 k) hI
  have hbound : (nfIter (pymongoInit c skip limit disp).1 k).i ≤
      (pymongoInit c skip limit disp).1.total_docs := by
    rw [hi]
    omega
  refine ⟨hi, hbound, hy, ?_, ?_, ?_⟩
  · intro hk
    have hlt : (nfIter (pymongoInit c skip limit disp).1 k).i <
        (nfIter (pymongoInit c skip limit disp).1 k).total_docs := by
      rw [hi, hT]
      omega
    exact (sLt hlt).2
  · intro hk
    have hge : (nfIter (pymongoInit c skip limit disp).1 k).total_docs ≤
        (nfIter (pymongoInit c skip limit disp).1 k).i := by
      rw [hi, hT]
      omega
    exact (sGe hge).2
  · constructor
    · intro hstop
      by_contra hne
      have hlt : (nfIter (pymongoInit c skip limit disp).1 k).i <
          (nfIter (pymongoInit c skip limit disp).1 k).total_docs := by
        rw [hi, hT]
        rw [hi] at hne
        omega
      obtain ⟨d, hd⟩ := (sLt hlt).2
      rw [hstop] at hd
      exact NextResult.noConfusion hd
    · intro heq
      have hge : (nfIter (pymongoInit c skip limit disp).1 k).total_docs ≤
          (nfIter (pymongoInit c skip limit disp).1 k).i := by
        rw [hi, hT]
        rw [hi] at heq
        omega
      exact (sGe hge).2

/-- Witness for C1: collection with three matching documents, skip 1 and
limit 5, so the total is 2: after 3 fault-free advances exactly 2 documents
have been yielded and the iterator signals end of sequence. -/
theorem c1_exact_total_yield_witness :
    nfYieldCount (pymongoInit ⟨[10, 20, 30], [30, 20, 10]⟩ 1 5 0).1 3 = 2 ∧
    (stepNF (nfIter (pymongoInit ⟨[10, 20, 30], [30, 20, 10]⟩ 1 5 0).1 3)).result =
      NextResult.stopIteration := by
  have h := c1_exact_total_yield ⟨[10, 20, 30], [30, 20, 10]⟩ 1 5 0 3 rfl
  have hT : (pymongoInit ⟨[10, 20, 30], [30, 20, 10]⟩ 1 5 0).1.total_docs = 2 := rfl
  constructor
  · have h1 := h.2.2.1
    rw [hT] at h1
    simpa using h1
  · exact h.2.2.2.2.1 (by rw [hT]; omega)

/-- C6: a pull on the active cursor failing with anything other than
`CursorNotFound` propagates unchanged to the caller: no recovery find, no
second pull, and the state (in particular `i`) is untouched. -/
theorem c6_other_error_propagates (st : PymongoIterator) (p2 : Pull) (cf : Bool)
    (hact : st.i < st.total_docs) :
    pymongoNext st Pull.err p2 cf =
      { result := NextResult.raised, state := st,
        calls := [ExtCall.nextPull] } :=
  next_active_err st p2 cf hact

/-- Witness for C6 at a concrete active state. -/
theorem c6_other_error_propagates_witness :
    pymongoNext ⟨⟨[1, 2], [1, 2]⟩, 0, 5, 0, 0, 2, [1, 2]⟩ Pull.err Pull.ok false =
      { result := NextResult.raised,
        state := ⟨⟨[1, 2], [1, 2]⟩, 0, 5, 0, 0, 2, [1, 2]⟩,
        calls := [ExtCall.nextPull] } :=
  c6_other_error_propagates ⟨⟨[1, 2], [1, 2]⟩, 0, 5, 0, 0, 2, [1, 2]⟩ Pull.ok false
    (by decide)

/-- C9: the length query returns `total_docs`, is a pure function of the
state, and `total_docs` is invariant under every advance, whatever faults
occur (so it is never recomputed after construction). -/
theorem c9_len_invariant (st : PymongoIterator) (p1 p2 : Pull) (cf : Bool) :
    pymongoLen st = st.total_docs ∧
    pymongoLen (pymongoNext st p1 p2 cf).state = pymongoLen st := by
  refine ⟨rfl, ?_⟩
  rcases Nat.lt_or_ge st.i st.total_docs with hlt | hge
  · cases p1 with
    | err =>
      rw [next_active_err st p2 cf hlt]
    | ok =>
      rcases hc : st.cursor with _ | ⟨d, rest⟩
      · rw [next_active_ok_nil st p2 cf hlt hc]
      · rw [next_active_ok_cons st p2 cf d rest hlt hc]
        rfl
    | notFound =>
      cases p2 with
      | ok =>
        rcases hc : reinitCursor st with _ | ⟨d, rest⟩
        · rw [next_notFound_ok_nil st cf hlt hc]
          rfl
        · rw [next_notFound_ok_cons st cf d rest hlt hc]
          rfl
      | notFound =>
        rw [next_notFound_fail st Pull.notFound cf hlt (by decide)]
        rfl
      | err =>
        rw [next_notFound_fail st Pull.err cf hlt (by decide)]
        rfl
  · cases cf with
    | false => rw [next_exhausted st p1 p2 hge]
    | true => rw [next_exhausted_closeFail st p1 p2 hge]

/-- C10: if the underlying cursor signals its own end of sequence while
`i < total_docs`, the advance propagates that signal: it is not treated as
an invalidation (no find call), `i` is not incremented, and the cursor is
not closed (no close call). -/
theorem c10_underlying_stop_propagates (st : PymongoIterator) (p2 : Pull)
    (cf : Bool) (hact : st.i < st.total_docs) (hcur : st.cursor = []) :
    pymongoNext st Pull.ok p2 cf =
      { result := NextResult.stopIteration, state := st,
        calls := [ExtCall.nextPull] } :=
  next_active_ok_nil st p2 cf hact hcur

/-- Witness for C10: one document still owed but the underlying cursor is
already empty. -/
theorem c10_underlying_stop_propagates_witness :
    pymongoNext ⟨⟨[1], [1]⟩, 0, 5, 0, 0, 1, []⟩ Pull.ok Pull.ok false =
      { result := NextResult.stopIteration,
        state := ⟨⟨[1], [1]⟩, 0, 5, 0, 0, 1, []⟩,
        calls := [ExtCall.nextPull] } :=
  c10_underlying_stop_propagates ⟨⟨[1], [1]⟩, 0, 5, 0, 0, 1, []⟩ Pull.ok false
    (by decide) rfl

/-- The call trace of an advance that hits `CursorNotFound`, for every
behaviour of the recovery pull: failed pull, recovery find, recovery pull. -/
theorem next_notFound_calls (st : PymongoIterator) (p2 : Pull) (cf : Bool)
    (hact : st.i < st.total_docs) :
    (pymongoNext st Pull.notFound p2 cf).calls =
      [ExtCall.nextPull, ExtCall.find (st.i + st.skip) (interLimit st) false,
       ExtCall.nextPull] := by
  cases p2 with
  | ok =>
    rcases hc : reinitCursor st with _ | ⟨d, rest⟩
    · rw [next_notFound_ok_nil st cf hact hc]
    · rw [next_notFound_ok_cons st cf d rest hact hc]
  | notFound =>
    rw [next_notFound_fail st Pull.notFound cf hact (by decide)]
  | err =>
    rw [next_notFound_fail st Pull.err cf hact (by decide)]

/-- C2: the replacement cursor is opened with skip `initialSkip + i` and
limit `limit - i` when `limit` is nonzero (the second conjunct pins the
truncated subtraction to the exact difference). -/
theorem c2_reinit_window (st : PymongoIterator) (p2 : Pull) (cf : Bool)
    (hact : st.i < st.total_docs) (hlim : st.limit ≠ 0)
    (hle : st.i ≤ st.limit) :
    interLimit st = st.limit - st.i ∧
    st.i + (st.limit - st.i) = st.limit ∧
    (pymongoNext st Pull.notFound p2 cf).calls =
      [ExtCall.nextPull,
       ExtCall.find (st.i + st.skip) (st.limit - st.i) false,
       ExtCall.nextPull] := by
  have h1 : interLimit st = st.limit - st.i := by
    rw [interLimit, if_pos hlim]
  refine ⟨h1, by omega, ?_⟩
  rw [next_notFound_calls st p2 cf hact, h1]

/-- Witness for C2: limit 100, skip 50, 40 documents already emitted: the
replacement cursor is opened with skip 90 and limit 60. -/
theorem c2_reinit_window_witness :
    (pymongoNext ⟨⟨[], []⟩, 50, 100, 0, 40, 100, []⟩ Pull.notFound Pull.ok
        false).calls =
      [ExtCall.nextPull, ExtCall.find 90 60 false, ExtCall.nextPull] := by
  have h := c2_reinit_window ⟨⟨[], []⟩, 50, 100, 0, 40, 100, []⟩ Pull.ok false
    (by decide) (by decide) (by decide)
  exact h.2.2

/-- C3: a successful recovery pulls exactly one document from the
replacement cursor (one pull after the recovery find), increments `i` by
exactly one, and returns that document. -/
theorem c3_reinit_single_pull (st : PymongoIterator) (cf : Bool) (d : Nat)
    (rest : List Nat) (hact : st.i < st.total_docs)
    (hcur : reinitCursor st = d :: rest) :
    (pymongoNext st Pull.notFound Pull.ok cf).result = NextResult.yielded d ∧
    (pymongoNext st Pull.notFound Pull.ok cf).state.i = st.i + 1 ∧
    (pymongoNext st Pull.notFound Pull.ok cf).state.cursor = rest ∧
    (pymongoNext st Pull.notFound Pull.ok cf).calls =
      [ExtCall.nextPull,
       ExtCall.find (st.i + st.skip) (interLimit st) false,
       ExtCall.nextPull] := by
  rw [next_notFound_ok_cons st cf d rest hact hcur]
  exact ⟨rfl, rfl, rfl, rfl⟩

/-- Witness for C3: after one emitted document a lost cursor recovers the
second document and the emitted count moves from 1 to 2. -/
theorem c3_reinit_single_pull_witness :
    (pymongoNext ⟨⟨[5, 6, 7], [5, 6, 7]⟩, 0, 3, 0, 1, 3, [99]⟩ Pull.notFound
        Pull.ok false).result = NextResult.yielded 6 ∧
    (pymongoNext ⟨⟨[5, 6, 7], [5, 6, 7]⟩, 0, 3, 0, 1, 3, [99]⟩ Pull.notFound
        Pull.ok false).state.i = 2 := by
  have h := c3_reinit_single_pull ⟨⟨[5, 6, 7], [5, 6, 7]⟩, 0, 3, 0, 1, 3, [99]⟩
    false 6 [7] (by decide) (by decide)
  exact ⟨h.1, h.2.1⟩

/-- C5: the recovery find call carries no sort (its sort flag is false), no
advance after a `CursorNotFound` ever opens a sorted cursor, and the
replacement cursor contents are a skip/limit window of the natural-order
list rather than of the sorted list. -/
theorem c5_reinit_unsorted (st : PymongoIterator) (p2 : Pull) (cf : Bool)
    (hact : st.i < st.total_docs) :
    (pymongoNext st Pull.notFound p2 cf).calls =
      [ExtCall.nextPull,
       ExtCall.find (st.i + st.skip) (interLimit st) false,
       ExtCall.nextPull] ∧
    (∀ s l, ExtCall.find s l true ∉ (pymongoNext st Pull.notFound p2 cf).calls) ∧
    reinitCursor st =
      applyLimit (interLimit st) (st.collection.docs.drop (st.i + st.skip)) := by
  refine ⟨next_notFound_calls st p2 cf hact, ?_, rfl⟩
  intro s l hmem
  rw [next_notFound_calls st p2 cf hact] at hmem
  simp at hmem

/-- Witness for C5: a concrete recovery whose find call is unsorted. -/
theorem c5_reinit_unsorted_witness :
    (pymongoNext ⟨⟨[1, 2, 3], [3, 2, 1]⟩, 0, 3, 0, 1, 3, [2, 1]⟩ Pull.notFound
        Pull.ok false).calls =
      [ExtCall.nextPull, ExtCall.find 1 2 false, ExtCall.nextPull] := by
  have h := c5_reinit_unsorted ⟨⟨[1, 2, 3], [3, 2, 1]⟩, 0, 3, 0, 1, 3, [2, 1]⟩
    Pull.ok false (by decide)
  exact h.1

/-- C7 counterexample: at exhaustion with a close call that raises, the
error propagates to the caller instead of being ignored, and end of
sequence is not signalled. -/
theorem c7_close_error_counterexample :
    (pymongoNext ⟨⟨[], []⟩, 0, 5, 0, 0, 0, []⟩ Pull.ok Pull.ok true).result =
      NextResult.raised ∧
    (pymongoNext ⟨⟨[], []⟩, 0, 5, 0, 0, 0, []⟩ Pull.ok Pull.ok true).result ≠
      NextResult.stopIteration := by
  decide

/-- C7 amended: when `total_docs ≤ i` the advance closes the active cursor
and signals end of sequence; the close is not guarded, so if the close
raises, that error propagates instead of the end-of-sequence signal. -/
theorem c7_close_then_stop (st : PymongoIterator) (p1 p2 : Pull)
    (h : st.total_docs ≤ st.i) :
    pymongoNext st p1 p2 false =
      { result := NextResult.stopIteration, state := st,
        calls := [ExtCall.closeCursor] } ∧
    pymongoNext st p1 p2 true =
      { result := NextResult.raised, state := st,
        calls := [ExtCall.closeCursor] } :=
  ⟨next_exhausted st p1 p2 h, next_exhausted_closeFail st p1 p2 h⟩

/-- Witness for C7 at an exhausted concrete state. -/
theorem c7_close_then_stop_witness :
    pymongoNext ⟨⟨[], []⟩, 0, 5, 0, 0, 0, []⟩ Pull.ok Pull.ok false =
      { result := NextResult.stopIteration,
        state := ⟨⟨[], []⟩, 0, 5, 0, 0, 0, []⟩,
        calls := [ExtCall.closeCursor] } := by
  have h := c7_close_then_stop ⟨⟨[], []⟩, 0, 5, 0, 0, 0, []⟩ Pull.ok Pull.ok
    (by decide)
  exact h.1

/-- C4 counterexample: an unbounded limit is normalized to `2 ^ 31`, which
is not representable in a 32-bit signed integer range (whose maximum is
`2 ^ 31 - 1`). -/
theorem c4_limit_counterexample :
    (pymongoInit ⟨[], []⟩ 0 0 0).1.limit = 2 ^ 31 ∧
    ¬ (pymongoInit ⟨[], []⟩ 0 0 0).1.limit ≤ 2 ^ 31 - 1 := by
  decide

/-- C4 amended: a limit of 0 is normalized to `2 ^ 31` (one past the
largest 32-bit signed integer), and the count query populating
`total_docs` is issued against the matching documents with the initial
skip and that normalized limit. -/
theorem c4_limit_normalization (c : MongoColl) (skip disp : Nat) :
    (pymongoInit c skip 0 disp).1.limit = 2 ^ 31 ∧
    2 ^ 31 - 1 < (pymongoInit c skip 0 disp).1.limit ∧
    (pymongoInit c skip 0 disp).2 =
      [ExtCall.countDocuments skip (2 ^ 31), ExtCall.find skip (2 ^ 31) true] ∧
    (pymongoInit c skip 0 disp).1.total_docs =
      countDocs c.docs.length skip (2 ^ 31) := by
  refine ⟨rfl, ?_, rfl, rfl⟩
  show (2 : Nat) ^ 31 - 1 < 2 ^ 31
  norm_num

/-- C8 counterexample: even when the collection has no matching documents,
construction still invokes the find operation of the collection (opening
the initial cursor), so it is not the case that find is never invoked. -/
theorem c8_find_at_init_counterexample :
    (pymongoInit ⟨[], []⟩ 0 0 0).1.total_docs = 0 ∧
    ExtCall.find 0 (2 ^ 31) true ∈ (pymongoInit ⟨[], []⟩ 0 0 0).2 := by
  refine ⟨rfl, ?_⟩
  simp [pymongoInit]

/-- C8 amended: with zero matching documents the reported total is 0 and
the first advance immediately signals end of sequence, performing no
next-pull and opening no replacement cursor (its only external call is the
close); construction itself still opens the initial cursor via one find
call. -/
theorem c8_zero_matches (c : MongoColl) (skip limit disp : Nat) (p1 p2 : Pull)
    (hzero : c.docs = []) :
    (pymongoInit c skip limit disp).1.total_docs = 0 ∧
    pymongoNext (pymongoInit c skip limit disp).1 p1 p2 false =
      { result := NextResult.stopIteration,
        state := (pymongoInit c skip limit disp).1,
        calls := [ExtCall.closeCursor] } ∧
    ExtCall.find skip (if limit = 0 then 2 ^ 31 else limit) true ∈
      (pymongoInit c skip limit disp).2 := by
  have htot : (pymongoInit c skip limit disp).1.total_docs = 0 := by
    show countDocs c.docs.length skip _ = 0
    rw [hzero]
    simp [countDocs]
  refine ⟨htot, ?_, ?_⟩
  · exact next_exhausted _ p1 p2 (by rw [htot]; exact Nat.zero_le _)
  · simp [pymongoInit]

/-- Witness for C8 amended at the empty collection with limit 7. -/
theorem c8_zero_matches_witness :
    (pymongoInit ⟨[], []⟩ 0 7 0).1.total_docs = 0 ∧
    (pymongoNext (pymongoInit ⟨[], []⟩ 0 7 0).1 Pull.ok Pull.ok false).result =
      NextResult.stopIteration := by
  have h := c8_zero_matches ⟨[], []⟩ 0 7 0 Pull.ok Pull.ok rfl
  exact ⟨h.1, by rw [h.2.1]⟩
